import Mathlib

/-!
Shallow embedding of `src/pki_crypto.c` (libssh PKI infrastructure over
OpenSSL) and proofs about its key-handling operations.

Big integers (OpenSSL `BIGNUM`) are modelled as `Nat`; an `Option Nat`
field models a `BIGNUM *` that may be `NULL`.  Fallible C functions
returning `NULL` are modelled as `Option`-returning functions; functions
that distinguish error paths via `ssh_set_error` return `Except`.
External collaborators (the OpenSSL PEM readers, `DSA_do_sign` /
`RSA_do_sign`, the big-integer codec `make_string_bn` /
`make_bignum_string`, the private-key header classifier) are passed in
as explicit function parameters, and the embedding additionally records
which external calls were made where a claim is about invocation.
-/

/-- Key type tags, from `enum ssh_keytypes_e` (libssh/keys.h).  Only the
constructors that `pki_crypto.c` dispatches on are modelled. -/
inductive KeyType where
  | dss
  | rsa
  | rsa1
  | ecdsa
  | unknown
  deriving DecidableEq, Repr

/-- Modelled from the spec: `flags` is a bit set with values `PUBLIC` and
`PRIVATE` (the numeric values live in libssh/pki.h, not under src/). -/
def SSH_KEY_FLAG_PUBLIC : Nat := 1

/-- Modelled from the spec: the `PRIVATE` bit of the `flags` bit set
(libssh/pki.h, not under src/). -/
def SSH_KEY_FLAG_PRIVATE : Nat := 2

/-- Modelled from the spec: libssh success status (libssh.h, not under src/). -/
def SSH_OK : Int := 0

/-- Modelled from the spec: libssh error status (libssh.h, not under src/). -/
def SSH_ERROR : Int := -1

/-- The DSA payload of a key: OpenSSL `DSA` struct fields used by
`pki_crypto.c`.  Each field is a `BIGNUM *`, hence `Option Nat`. -/
structure DsaStruct where
  p : Option Nat
  q : Option Nat
  g : Option Nat
  pub_key : Option Nat
  priv_key : Option Nat
  deriving DecidableEq, Repr

/-- The RSA payload of a key: OpenSSL `RSA` struct fields used by
`pki_crypto.c`. -/
structure RsaStruct where
  n : Option Nat
  e : Option Nat
  d : Option Nat
  p : Option Nat
  q : Option Nat
  dmp1 : Option Nat
  dmq1 : Option Nat
  iqmp : Option Nat
  deriving DecidableEq, Repr

/-- The `ssh_key` struct (`struct ssh_key_struct`): type tag, canonical
type-name string, flag bit set, and the two variant payload pointers. -/
structure SshKey where
  type : KeyType
  type_c : String
  flags : Nat
  dsa : Option DsaStruct
  rsa : Option RsaStruct
  deriving DecidableEq, Repr

/-- `pki_key_dup` from pki_crypto.c.  `ssh_key_new` and every `BN_dup` of a
non-NULL bignum are modelled as succeeding; `BN_dup(NULL)` returns `NULL`
in OpenSSL, so duplicating an absent required field takes the `fail` path.
The `fail` label frees the partially built key and returns `NULL`, so the
whole function is `Option SshKey` with `none` for every failure. -/
def pki_key_dup (key : SshKey) (demote : Bool) : Option SshKey :=
  let base : SshKey :=
    { type := key.type, type_c := key.type_c, flags := key.flags,
      dsa := none, rsa := none }
  match key.type with
  | .dss =>
    match key.dsa with
    | none => none
    | some kd =>
      match kd.p, kd.q, kd.g, kd.pub_key with
      | some vp, some vq, some vg, some vy =>
        if demote = false ∧ key.flags &&& SSH_KEY_FLAG_PRIVATE ≠ 0 then
          match kd.priv_key with
          | some vx =>
            some { base with
                   dsa := some ⟨some vp, some vq, some vg, some vy, some vx⟩ }
          | none => none
        else
          some { base with
                 dsa := some ⟨some vp, some vq, some vg, some vy, none⟩ }
      | _, _, _, _ => none
  | .rsa | .rsa1 =>
    match key.rsa with
    | none => none
    | some kr =>
      match kr.n, kr.e with
      | some vn, some ve =>
        if demote = false ∧ key.flags &&& SSH_KEY_FLAG_PRIVATE ≠ 0 then
          match kr.d with
          | some vd =>
            some { base with
                   rsa := some ⟨some vn, some ve, some vd,
                                kr.p, kr.q, kr.dmp1, kr.dmq1, kr.iqmp⟩ }
          | none => none
        else
          some { base with
                 rsa := some ⟨some vn, some ve, none,
                              none, none, none, none, none⟩ }
      | _, _ => none
  | .ecdsa | .unknown => none

/-- Does the key's flag bit set contain `PRIVATE`? -/
def hasPrivFlag (k : SshKey) : Bool :=
  k.flags &&& SSH_KEY_FLAG_PRIVATE != 0

/-- Well-formedness of a key handle, the data-model invariant: exactly the
owning variant's payload is populated, the public fields are present, and
the secret fields are present exactly when `PRIVATE` is set (for RSA the
acceleration fields `p, q, dmp1, dmq1, iqmp` are optional when private and
absent when public). -/
def wfKey (k : SshKey) : Bool :=
  match k.type with
  | .dss =>
    match k.dsa, k.rsa with
    | some kd, none =>
      kd.p.isSome && kd.q.isSome && kd.g.isSome && kd.pub_key.isSome &&
        (if hasPrivFlag k then kd.priv_key.isSome else kd.priv_key.isNone)
    | _, _ => false
  | .rsa | .rsa1 =>
    match k.dsa, k.rsa with
    | none, some kr =>
      kr.n.isSome && kr.e.isSome &&
        (if hasPrivFlag k then
           kr.d.isSome
         else
           kr.d.isNone && kr.p.isNone && kr.q.isNone &&
             kr.dmp1.isNone && kr.dmq1.isNone && kr.iqmp.isNone)
    | _, _ => false
  | .ecdsa | .unknown => false

/-- A concrete well-formed private DSS key used in concrete evaluations. -/
def dssPrivKey : SshKey :=
  { type := .dss, type_c := "ssh-dss",
    flags := SSH_KEY_FLAG_PUBLIC ||| SSH_KEY_FLAG_PRIVATE,
    dsa := some ⟨some 5, some 7, some 2, some 11, some 4⟩,
    rsa := none }

/-! ## pem_get_password -/

/-- The outcome of one call to the session's `auth_function` callback: the
return code and the NUL-terminated passphrase bytes it wrote at the start
of the caller-owned buffer. -/
structure AuthCall where
  rc : Int
  written : List Nat
  deriving DecidableEq, Repr

/-- C `strlen` on a byte buffer: the number of bytes before the first NUL. -/
def strlenBuf (buf : List Nat) : Nat :=
  (buf.takeWhile (fun b => b ≠ 0)).length

/-- The buffer contents seen by `strlen` in `pem_get_password`: the function
first `memset`s the whole `size`-byte buffer to NUL, then the callback
overwrites a prefix with `written`. -/
def bufAfterAuth (size : Nat) (written : List Nat) : List Nat :=
  written ++ List.replicate (size - written.length) 0

/-- `pem_get_password` from pki_crypto.c, the `pem_password_cb` handed to
OpenSSL when a session auth callback is available.  `bufNull` models
`buf == NULL`; `hasAuth` models
`session && session->common.callbacks && session->common.callbacks->auth_function`;
`auth` is the external callback's behaviour.  Returns the byte count given
to OpenSSL. -/
def pem_get_password (bufNull : Bool) (size : Nat) (hasAuth : Bool)
    (auth : AuthCall) : Int :=
  if bufNull then 0
  else if hasAuth then
    if auth.rc = 0 then Int.ofNat (strlenBuf (bufAfterAuth size auth.written))
    else 0
  else 0

/-! ## pki_private_key_from_base64 -/

/-- How the PEM reader is invoked by `pki_private_key_from_base64`: with a
NULL callback and the passphrase as userdata (`direct`), with
`pem_get_password` and the session as userdata (`provider`), or with a NULL
callback and NULL userdata, leaving OpenSSL's own interactive prompt
(`builtin`). -/
inductive PassMech where
  | direct (pass : String)
  | provider
  | builtin
  deriving DecidableEq, Repr

/-- Error exits of `pki_private_key_from_base64`, one per `ssh_set_error`
call or bare NULL return in the source. -/
inductive DecodeErr where
  | initFailed
  | unknownPrivateKey
  | parseFailed (fam : KeyType)
  | unknownType
  | keyNewFailed
  deriving DecidableEq, Repr

/-- Modelled from the spec: `ssh_key_type_to_char` (keys.c, not under src/)
maps a key type to the protocol's canonical algorithm identifier string. -/
def ssh_key_type_to_char : KeyType → String
  | .dss => "ssh-dss"
  | .rsa => "ssh-rsa"
  | .rsa1 => "ssh-rsa1"
  | .ecdsa => "ssh-ecdsa"
  | .unknown => "ssh-keytype-unknown"

/-- The passphrase mechanism `pki_private_key_from_base64` selects: the
source passes `(NULL, passphrase)` to the PEM reader when a passphrase is
given, `(pem_get_password, session)` when the session has an
`auth_function`, and `(NULL, NULL)` (OpenSSL's own prompt) otherwise. -/
def decodeMech (passphrase : Option String) (hasAuth : Bool) : PassMech :=
  match passphrase with
  | some pass => .direct pass
  | none => if hasAuth then .provider else .builtin

/-- `pki_private_key_from_base64` from pki_crypto.c.  External pieces are
parameters: `sshInitOk` and `kNewOk` model the success of `ssh_init` and
`ssh_key_new`; `classify` is `pki_privatekey_type_from_string` (pki.c, not
under src/); `pemDSA` / `pemRSA` are `PEM_read_bio_DSAPrivateKey` /
`PEM_read_bio_RSAPrivateKey`, each given the passphrase mechanism the code
selects; `hasAuth` models the session carrying an `auth_function`.  Besides
the result it returns the list of PEM-reader invocations made, with the
mechanism each was given (empty when no reader, hence no passphrase
mechanism of any kind, was reached). -/
def pki_private_key_from_base64 (sshInitOk kNewOk : Bool)
    (classify : String → KeyType)
    (pemDSA : PassMech → Option DsaStruct)
    (pemRSA : PassMech → Option RsaStruct)
    (hasAuth : Bool) (b64_key : String) (passphrase : Option String) :
    Except DecodeErr SshKey × List (KeyType × PassMech) :=
  if sshInitOk = false then (.error .initFailed, [])
  else
    let type := classify b64_key
    if type = .unknown then (.error .unknownPrivateKey, [])
    else
      let mech : PassMech := decodeMech passphrase hasAuth
      let finish (dsa : Option DsaStruct) (rsa : Option RsaStruct)
          (calls : List (KeyType × PassMech)) :
          Except DecodeErr SshKey × List (KeyType × PassMech) :=
        if kNewOk = false then (.error .keyNewFailed, calls)
        else
          (.ok { type := type, type_c := ssh_key_type_to_char type,
                 flags := SSH_KEY_FLAG_PRIVATE ||| SSH_KEY_FLAG_PUBLIC,
                 dsa := dsa, rsa := rsa }, calls)
      match type with
      | .dss =>
        match pemDSA mech with
        | none => (.error (.parseFailed .dss), [(.dss, mech)])
        | some d => finish (some d) none [(.dss, mech)]
      | .rsa =>
        match pemRSA mech with
        | none => (.error (.parseFailed .rsa), [(.rsa, mech)])
        | some r => finish none (some r) [(.rsa, mech)]
      | .rsa1 =>
        match pemRSA mech with
        | none => (.error (.parseFailed .rsa1), [(.rsa1, mech)])
        | some r => finish none (some r) [(.rsa1, mech)]
      | .ecdsa => (.error .unknownType, [])
      | .unknown => (.error .unknownPrivateKey, [])

/-! ## pki_pubkey_build_dss / pki_pubkey_build_rsa -/

/-- A wire-format `ssh_string` argument to the builders, as raw bytes. -/
abbrev SshStr := List Nat

/-- Outcome of `pki_pubkey_build_dss` on a caller-supplied key: the return
status, whether `key->dsa` still stores the pointer obtained from
`DSA_new`, whether that DSA struct has been freed (`DSA_free`), and the
field contents last written into it.  `key_dsa_set && dsa_freed` is a
dangling pointer left in the caller's key. -/
structure DsaBuildOut where
  rc : Int
  key_dsa_set : Bool
  dsa_freed : Bool
  dsa_val : DsaStruct
  deriving DecidableEq, Repr

/-- Outcome of `pki_pubkey_build_rsa`, mirroring `DsaBuildOut`. -/
structure RsaBuildOut where
  rc : Int
  key_rsa_set : Bool
  rsa_freed : Bool
  rsa_val : RsaStruct
  deriving DecidableEq, Repr

/-- `pki_pubkey_build_dss` from pki_crypto.c.  `allocOk` models `DSA_new`
succeeding; `conv` is the external big-integer codec `make_string_bn`
(NULL result on a malformed field).  The source computes all four fields,
then on any NULL calls `DSA_free(key->dsa)` and returns `SSH_ERROR`
without clearing `key->dsa`. -/
def pki_pubkey_build_dss (allocOk : Bool) (conv : SshStr → Option Nat)
    (p q g pubkey : SshStr) : DsaBuildOut :=
  if allocOk = false then
    { rc := SSH_ERROR, key_dsa_set := false, dsa_freed := false,
      dsa_val := ⟨none, none, none, none, none⟩ }
  else
    let val : DsaStruct :=
      ⟨conv p, conv q, conv g, conv pubkey, none⟩
    if val.p = none ∨ val.q = none ∨ val.g = none ∨ val.pub_key = none then
      { rc := SSH_ERROR, key_dsa_set := true, dsa_freed := true,
        dsa_val := val }
    else
      { rc := SSH_OK, key_dsa_set := true, dsa_freed := false,
        dsa_val := val }

/-- `pki_pubkey_build_rsa` from pki_crypto.c, analogous to the DSS
builder with fields `e` then `n`. -/
def pki_pubkey_build_rsa (allocOk : Bool) (conv : SshStr → Option Nat)
    (e n : SshStr) : RsaBuildOut :=
  if allocOk = false then
    { rc := SSH_ERROR, key_rsa_set := false, rsa_freed := false,
      rsa_val := ⟨none, none, none, none, none, none, none, none⟩ }
  else
    let val : RsaStruct :=
      ⟨conv n, conv e, none, none, none, none, none, none⟩
    if val.e = none ∨ val.n = none then
      { rc := SSH_ERROR, key_rsa_set := true, rsa_freed := true,
        rsa_val := val }
    else
      { rc := SSH_OK, key_rsa_set := true, rsa_freed := false,
        rsa_val := val }

/-- Modelled from the spec: the public-key import caller (pki.c, not under
src/) that allocates a fresh KeyHandle, sets `family`, `type_name` and
`flags = PUBLIC`, then fills the payload via `pki_pubkey_build_dss`. -/
def build_dsa (allocOk : Bool) (conv : SshStr → Option Nat)
    (p q g pubkey : SshStr) : Option SshKey :=
  let out := pki_pubkey_build_dss allocOk conv p q g pubkey
  if out.rc = SSH_OK then
    some { type := .dss, type_c := ssh_key_type_to_char .dss,
           flags := SSH_KEY_FLAG_PUBLIC, dsa := some out.dsa_val, rsa := none }
  else none

/-- Modelled from the spec: the public-key import caller (pki.c, not under
src/) that allocates a fresh KeyHandle, sets `family`, `type_name` and
`flags = PUBLIC`, then fills the payload via `pki_pubkey_build_rsa`. -/
def build_rsa (allocOk : Bool) (conv : SshStr → Option Nat)
    (e n : SshStr) : Option SshKey :=
  let out := pki_pubkey_build_rsa allocOk conv e n
  if out.rc = SSH_OK then
    some { type := .rsa, type_c := ssh_key_type_to_char .rsa,
           flags := SSH_KEY_FLAG_PUBLIC, dsa := none, rsa := some out.rsa_val }
  else none

/-- Modelled from the spec: the PublicKeyBuilder entry dispatches on the
algorithm family; elliptic-curve and unknown families are rejected before
any builder runs. -/
def pubkey_build (allocOk : Bool) (conv : SshStr → Option Nat)
    (fam : KeyType) (fields : List SshStr) : Option SshKey :=
  match fam, fields with
  | .dss, [p, q, g, y] => build_dsa allocOk conv p q g y
  | .rsa, [e, n] => build_rsa allocOk conv e n
  | .rsa1, [e, n] => build_rsa allocOk conv e n
  | _, _ => none

/-! ## pki_publickey_to_string -/

/-- Big-endian 4-byte encoding of a length, as written by
`buffer_add_ssh_string`'s `uint32` length prefix. -/
def u32be (n : Nat) : List Nat :=
  [n / 2 ^ 24 % 256, n / 2 ^ 16 % 256, n / 2 ^ 8 % 256, n % 256]

/-- One length-prefixed `ssh_string` on the wire: `uint32(length)` followed
by the payload bytes. -/
def sshStringWire (payload : List Nat) : List Nat :=
  u32be payload.length ++ payload

/-- The bytes of a C string, for `ssh_string_from_char(key->type_c)`. -/
def strBytes (s : String) : List Nat :=
  s.data.map Char.toNat

/-- `pki_publickey_to_string` from pki_crypto.c.  The external big-integer
codec `make_bignum_string` is the parameter `mkBn`, giving the payload
bytes of a bignum's wire string or `none` on failure; the buffer and
string containers are modelled by list concatenation (their allocations
modelled as succeeding).  Every `goto fail` path burns and frees all
temporaries and returns `NULL`, hence `none`. -/
def pki_publickey_to_string (mkBn : Nat → Option (List Nat))
    (key : SshKey) : Option (List Nat) :=
  let header := sshStringWire (strBytes key.type_c)
  match key.type with
  | .dss =>
    match key.dsa with
    | none => none
    | some kd =>
      match kd.p, kd.q, kd.g, kd.pub_key with
      | some vp, some vq, some vg, some vy =>
        match mkBn vp, mkBn vq, mkBn vg, mkBn vy with
        | some bp, some bq, some bg, some bn =>
          some (header ++ sshStringWire bp ++ sshStringWire bq ++
                sshStringWire bg ++ sshStringWire bn)
        | _, _, _, _ => none
      | _, _, _, _ => none
  | .rsa | .rsa1 =>
    match key.rsa with
    | none => none
    | some kr =>
      match kr.e, kr.n with
      | some ve, some vn =>
        match mkBn ve, mkBn vn with
        | some be, some bn =>
          some (header ++ sshStringWire be ++ sshStringWire bn)
        | _, _ => none
      | _, _ => none
  | .ecdsa | .unknown => none

/-! ## pki_do_sign -/

/-- The `SIGNATURE` struct (`struct signature_struct`): type tag plus the
two signature payload pointers, of which `pki_do_sign` populates exactly
one.  A DSA signature is the pair `(r, s)`; an RSA signature is the raw
signature bytes from `RSA_do_sign`. -/
structure SIGNATURE where
  type : KeyType
  dsa_sign : Option (Nat × Nat)
  rsa_sign : Option (List Nat)
  deriving DecidableEq, Repr

/-- A record of one invocation of an external signature primitive: which
primitive, the digest window handed to it, and the key payload pointer it
was given (possibly `NULL`, exactly as the source would pass it). -/
inductive PrimCall where
  | dsaCall (digest : List Nat) (key : Option DsaStruct)
  | rsaCall (digest : List Nat) (key : Option RsaStruct)
  deriving DecidableEq, Repr

/-- `SHA_DIGEST_LEN`, the fixed digest window length (libssh headers). -/
def SHA_DIGEST_LEN : Nat := 20

/-- `pki_do_sign` from pki_crypto.c.  `malloc` of the signature struct is
modelled as succeeding; the external primitives `DSA_do_sign` and
`RSA_do_sign` are the parameters `dsaPrim` / `rsaPrim`, each applied to the
digest window `hash + 1 .. hash + 1 + SHA_DIGEST_LEN` and the key's payload
pointer.  The second component records every primitive invocation made. -/
def pki_do_sign (dsaPrim : List Nat → Option DsaStruct → Option (Nat × Nat))
    (rsaPrim : List Nat → Option RsaStruct → Option (List Nat))
    (privatekey : SshKey) (hash : List Nat) :
    Option SIGNATURE × List PrimCall :=
  let window := (hash.drop 1).take SHA_DIGEST_LEN
  match privatekey.type with
  | .dss =>
    let call := PrimCall.dsaCall window privatekey.dsa
    match dsaPrim window privatekey.dsa with
    | none => (none, [call])
    | some rs =>
      (some { type := privatekey.type, dsa_sign := some rs,
              rsa_sign := none }, [call])
  | .rsa | .rsa1 =>
    let call := PrimCall.rsaCall window privatekey.rsa
    match rsaPrim window privatekey.rsa with
    | none => (none, [call])
    | some bytes =>
      (some { type := privatekey.type, dsa_sign := none,
              rsa_sign := some bytes }, [call])
  | .ecdsa | .unknown => (none, [])

/-! ## Claims about the Duplicator -/

/-- C1: the claim says `duplicate(k, demote=true)` always yields
`flags = PUBLIC` only.  The code at pki_crypto.c:82 copies `flags`
verbatim and never clears `PRIVATE`: on a private DSS key, the demoted
copy keeps `PUBLIC ||| PRIVATE` in `flags` even though its `priv_key`
field was (correctly) not copied, leaving a key that claims a private
half it does not have. -/
theorem pki_key_dup_demote_retains_private_flag :
    (pki_key_dup dssPrivKey true).map SshKey.flags =
      some (SSH_KEY_FLAG_PUBLIC ||| SSH_KEY_FLAG_PRIVATE) ∧
    ((pki_key_dup dssPrivKey true).bind SshKey.dsa).map DsaStruct.priv_key =
      some none := by decide

/-- C10: for every well-formed supported-family key,
`pki_key_dup k (demote := false)` succeeds and the copy agrees with `k` in
`family`, `type_name`, `flags` and every numeric field value, including
the optional RSA acceleration fields (copied exactly when present and the
key is private); at the value level the copy is `k` itself. -/
theorem pki_key_dup_no_demote_identity (k : SshKey) (h : wfKey k = true) :
    pki_key_dup k false = some k := by
  obtain ⟨t, tc, fl, dsaF, rsaF⟩ := k
  cases t with
  | dss =>
    rcases rsaF with _ | kr
    · rcases dsaF with _ | ⟨_ | vp, _ | vq, _ | vg, _ | vy, _ | vx⟩ <;>
        by_cases hp : fl &&& SSH_KEY_FLAG_PRIVATE ≠ 0 <;>
        simp_all [wfKey, hasPrivFlag, pki_key_dup, bne_iff_ne]
    · rcases dsaF with _ | kd <;> simp [wfKey] at h
  | rsa =>
    rcases dsaF with _ | kd
    · rcases rsaF with _ | ⟨_ | vn, _ | ve, _ | vd, rp, rq, rd1, rd2, ri⟩ <;>
        by_cases hp : fl &&& SSH_KEY_FLAG_PRIVATE ≠ 0 <;>
        simp_all [wfKey, hasPrivFlag, pki_key_dup, bne_iff_ne]
    · rcases rsaF with _ | kr <;> simp [wfKey] at h
  | rsa1 =>
    rcases dsaF with _ | kd
    · rcases rsaF with _ | ⟨_ | vn, _ | ve, _ | vd, rp, rq, rd1, rd2, ri⟩ <;>
        by_cases hp : fl &&& SSH_KEY_FLAG_PRIVATE ≠ 0 <;>
        simp_all [wfKey, hasPrivFlag, pki_key_dup, bne_iff_ne]
    · rcases rsaF with _ | kr <;> simp [wfKey] at h
  | ecdsa => simp [wfKey] at h
  | unknown => simp [wfKey] at h

/-- C10 witness: the duplication-fidelity theorem applied to a concrete
private DSS key. -/
theorem pki_key_dup_no_demote_identity_witness :
    pki_key_dup dssPrivKey false = some dssPrivKey :=
  pki_key_dup_no_demote_identity dssPrivKey (by decide)

/-! ## Claims about the Signer -/

/-- A concrete well-formed public-only RSA key (`flags = PUBLIC`, no
private half). -/
def rsaPubOnlyKey : SshKey :=
  { type := .rsa, type_c := "ssh-rsa", flags := SSH_KEY_FLAG_PUBLIC,
    dsa := none,
    rsa := some ⟨some 3233, some 17, none, none, none, none, none, none⟩ }

/-- A DSA primitive that always fails, for concrete evaluations. -/
def dsaPrimNone : List Nat → Option DsaStruct → Option (Nat × Nat) :=
  fun _ _ => none

/-- An RSA primitive that always returns a fixed signature, for concrete
evaluations. -/
def rsaPrimConst : List Nat → Option RsaStruct → Option (List Nat) :=
  fun _ _ => some [1, 2, 3]

/-- C2 counterexample: the claim says signing a `flags = PUBLIC`-only key
fails with `MissingPrivateKey` and never invokes the external signature
primitive.  `pki_do_sign` has no flags check at all: on a concrete
public-only RSA key it invokes `RSA_do_sign` (the invocation list is
non-empty) and, when the primitive succeeds, even returns a signature. -/
theorem pki_do_sign_public_only_key_invokes_primitive :
    (pki_do_sign dsaPrimNone rsaPrimConst rsaPubOnlyKey [0, 1, 2]).2 ≠ [] ∧
    (pki_do_sign dsaPrimNone rsaPrimConst rsaPubOnlyKey [0, 1, 2]).1.isSome
      = true := by decide

/-- C2 amended: `pki_do_sign` performs no `PRIVATE`-flag check.  For every
supported-family key — whatever its `flags` — it invokes the external
signature primitive exactly once on the digest window
`hash+1 .. hash+1+SHA_DIGEST_LEN` and the key's payload pointer, and it
returns a signature precisely when the primitive succeeds; a key lacking
the private half is passed to the primitive rather than rejected up
front. -/
theorem pki_do_sign_no_flag_check
    (dsaPrim : List Nat → Option DsaStruct → Option (Nat × Nat))
    (rsaPrim : List Nat → Option RsaStruct → Option (List Nat))
    (k : SshKey) (hash : List Nat) :
    (k.type = .dss →
      (pki_do_sign dsaPrim rsaPrim k hash).2 =
        [PrimCall.dsaCall ((hash.drop 1).take SHA_DIGEST_LEN) k.dsa] ∧
      (pki_do_sign dsaPrim rsaPrim k hash).1.isSome =
        (dsaPrim ((hash.drop 1).take SHA_DIGEST_LEN) k.dsa).isSome) ∧
    ((k.type = .rsa ∨ k.type = .rsa1) →
      (pki_do_sign dsaPrim rsaPrim k hash).2 =
        [PrimCall.rsaCall ((hash.drop 1).take SHA_DIGEST_LEN) k.rsa] ∧
      (pki_do_sign dsaPrim rsaPrim k hash).1.isSome =
        (rsaPrim ((hash.drop 1).take SHA_DIGEST_LEN) k.rsa).isSome) := by
  constructor
  · intro hT
    cases hD : dsaPrim (List.take SHA_DIGEST_LEN hash.tail) k.dsa <;>
      simp [pki_do_sign, hT, hD, List.drop_one]
  · intro hT
    rcases hT with hT | hT <;>
      cases hR : rsaPrim (List.take SHA_DIGEST_LEN hash.tail) k.rsa <;>
      simp [pki_do_sign, hT, hR, List.drop_one]

/-- C2 amended witness: the no-flag-check theorem applied to the concrete
public-only RSA key and the always-succeeding primitive. -/
theorem pki_do_sign_no_flag_check_witness :
    (pki_do_sign dsaPrimNone rsaPrimConst rsaPubOnlyKey [0, 1, 2]).2 =
      [PrimCall.rsaCall (([0, 1, 2].drop 1).take SHA_DIGEST_LEN)
        rsaPubOnlyKey.rsa] ∧
    (pki_do_sign dsaPrimNone rsaPrimConst rsaPubOnlyKey [0, 1, 2]).1.isSome =
      (rsaPrimConst (([0, 1, 2].drop 1).take SHA_DIGEST_LEN)
        rsaPubOnlyKey.rsa).isSome :=
  (pki_do_sign_no_flag_check dsaPrimNone rsaPrimConst rsaPubOnlyKey
    [0, 1, 2]).2 (Or.inl rfl)

/-! ## Claims about the WireEncoder -/

/-- C3: for every supported-family key with its public fields present and
encodable, `pki_publickey_to_string` returns exactly the length-prefixed
type-name string followed by the length-prefixed public fields in fixed
order — DSA: `p`, `q`, `g`, public value; RSA: public exponent `e` then
modulus `n`. -/
theorem pki_publickey_to_string_format :
    (∀ (mkBn : Nat → Option (List Nat)) (k : SshKey) (kd : DsaStruct)
       (vp vq vg vy : Nat) (bp bq bg bY : List Nat),
       k.type = .dss → k.dsa = some kd →
       kd.p = some vp → kd.q = some vq → kd.g = some vg →
       kd.pub_key = some vy →
       mkBn vp = some bp → mkBn vq = some bq → mkBn vg = some bg →
       mkBn vy = some bY →
       pki_publickey_to_string mkBn k =
         some (sshStringWire (strBytes k.type_c) ++ sshStringWire bp ++
               sshStringWire bq ++ sshStringWire bg ++ sshStringWire bY)) ∧
    (∀ (mkBn : Nat → Option (List Nat)) (k : SshKey) (kr : RsaStruct)
       (ve vn : Nat) (be bn : List Nat),
       (k.type = .rsa ∨ k.type = .rsa1) → k.rsa = some kr →
       kr.e = some ve → kr.n = some vn →
       mkBn ve = some be → mkBn vn = some bn →
       pki_publickey_to_string mkBn k =
         some (sshStringWire (strBytes k.type_c) ++ sshStringWire be ++
               sshStringWire bn)) := by
  constructor
  · intro mkBn k kd vp vq vg vy bp bq bg bY hT hD hp hq hg hy mp mq mg my
    simp [pki_publickey_to_string, hT, hD, hp, hq, hg, hy, mp, mq, mg, my]
  · intro mkBn k kr ve vn be bn hT hR he hn me mn
    rcases hT with hT | hT <;>
      simp [pki_publickey_to_string, hT, hR, he, hn, me, mn]

/-- C3 witness: the format theorem applied to a concrete public RSA key
(`e = 17`, `n = 3233`) with a concrete codec; the blob begins with
`string("ssh-rsa")` followed by the length-prefixed exponent and modulus
in that order. -/
theorem pki_publickey_to_string_format_witness :
    pki_publickey_to_string (fun v => some [v]) rsaPubOnlyKey =
      some (sshStringWire (strBytes "ssh-rsa") ++ sshStringWire [17] ++
            sshStringWire [3233]) :=
  pki_publickey_to_string_format.2 (fun v => some [v]) rsaPubOnlyKey
    ⟨some 3233, some 17, none, none, none, none, none, none⟩
    17 3233 [17] [3233] (Or.inl rfl) rfl rfl rfl rfl rfl

/-! ## Claims about the PrivateKeyDecoder -/

/-- C4: when the header classifier reports an unrecognized or unsupported
(elliptic-curve) private-key type, `pki_private_key_from_base64` fails
immediately; the PEM-reader invocation list is empty, so neither the
direct passphrase, nor the provider callback, nor OpenSSL's built-in
prompt is ever reached, and no decryption is attempted. -/
theorem decode_unrecognized_header_rejected
    (kNewOk : Bool) (classify : String → KeyType)
    (pemDSA : PassMech → Option DsaStruct)
    (pemRSA : PassMech → Option RsaStruct)
    (hasAuth : Bool) (b64 : String) (passphrase : Option String) :
    (classify b64 = .unknown →
      pki_private_key_from_base64 true kNewOk classify pemDSA pemRSA
        hasAuth b64 passphrase = (.error .unknownPrivateKey, [])) ∧
    (classify b64 = .ecdsa →
      pki_private_key_from_base64 true kNewOk classify pemDSA pemRSA
        hasAuth b64 passphrase = (.error .unknownType, [])) := by
  constructor <;> intro hC <;>
    simp [pki_private_key_from_base64, hC]

/-- C4 witness: the rejection theorem applied to concrete classifiers that
report an unknown header and an elliptic-curve header, with a direct
passphrase and a provider both available and concrete PEM readers that
would succeed if ever consulted. -/
theorem decode_unrecognized_header_rejected_witness :
    pki_private_key_from_base64 true true (fun _ => .unknown)
      (fun _ => some ⟨some 1, some 1, some 1, some 1, some 1⟩)
      (fun _ => none) true "not a pem block" (some "secret") =
      (.error .unknownPrivateKey, []) ∧
    pki_private_key_from_base64 true true (fun _ => .ecdsa)
      (fun _ => some ⟨some 1, some 1, some 1, some 1, some 1⟩)
      (fun _ => none) true "not a pem block" (some "secret") =
      (.error .unknownType, []) :=
  ⟨(decode_unrecognized_header_rejected true (fun _ => .unknown)
      (fun _ => some ⟨some 1, some 1, some 1, some 1, some 1⟩)
      (fun _ => none) true "not a pem block" (some "secret")).1 rfl,
   (decode_unrecognized_header_rejected true (fun _ => .ecdsa)
      (fun _ => some ⟨some 1, some 1, some 1, some 1, some 1⟩)
      (fun _ => none) true "not a pem block" (some "secret")).2 rfl⟩

/-- C5: whenever a supported-family private-key block is decoded, exactly
one PEM-reader call is made and it carries `decodeMech passphrase hasAuth`:
a supplied passphrase is passed directly (the provider is never invoked,
even when present); with no passphrase the provider is used exactly when
the session has an `auth_function`; otherwise OpenSSL's built-in prompt is
left in charge. -/
theorem decode_passphrase_precedence
    (kNewOk : Bool) (classify : String → KeyType)
    (pemDSA : PassMech → Option DsaStruct)
    (pemRSA : PassMech → Option RsaStruct)
    (hasAuth : Bool) (b64 : String) (passphrase : Option String)
    (hFam : classify b64 = .dss ∨ classify b64 = .rsa ∨
            classify b64 = .rsa1) :
    (pki_private_key_from_base64 true kNewOk classify pemDSA pemRSA
       hasAuth b64 passphrase).2 =
      [(classify b64, decodeMech passphrase hasAuth)] ∧
    (∀ pass, passphrase = some pass →
      decodeMech passphrase hasAuth = .direct pass) ∧
    (passphrase = none → hasAuth = true →
      decodeMech passphrase hasAuth = .provider) ∧
    (passphrase = none → hasAuth = false →
      decodeMech passphrase hasAuth = .builtin) := by
  refine ⟨?_, ?_, ?_, ?_⟩
  · rcases hFam with hC | hC | hC <;>
      cases kNewOk <;>
      [cases hP : pemDSA (decodeMech passphrase hasAuth);
       cases hP : pemDSA (decodeMech passphrase hasAuth);
       cases hP : pemRSA (decodeMech passphrase hasAuth);
       cases hP : pemRSA (decodeMech passphrase hasAuth);
       cases hP : pemRSA (decodeMech passphrase hasAuth);
       cases hP : pemRSA (decodeMech passphrase hasAuth)] <;>
      simp [pki_private_key_from_base64, hC, hP]
  · intro pass hp
    subst hp
    rfl
  · intro hp hA
    subst hp
    subst hA
    rfl
  · intro hp hA
    subst hp
    subst hA
    rfl

/-- C5 witness: precedence applied concretely — a DSS block with both a
direct passphrase and a provider available makes exactly one PEM-reader
call carrying the direct passphrase. -/
theorem decode_passphrase_precedence_witness :
    (pki_private_key_from_base64 true true (fun _ => .dss)
       (fun _ => some ⟨some 1, some 1, some 1, some 1, some 1⟩)
       (fun _ => none) true "dss pem block" (some "secret")).2 =
      [(KeyType.dss, PassMech.direct "secret")] :=
  (decode_passphrase_precedence true (fun _ => .dss)
     (fun _ => some ⟨some 1, some 1, some 1, some 1, some 1⟩)
     (fun _ => none) true "dss pem block" (some "secret")
     (Or.inl rfl)).1

/-! ## Claims about the PublicKeyBuilder -/

/-- C6: every KeyHandle successfully returned by the public-key build
entry points carries `flags = PUBLIC` only; `PRIVATE` is never set.  The
flag assignment lives in the import caller modelled from the spec
(`build_dsa` / `build_rsa`); the payload filling is the embedded
`pki_pubkey_build_dss` / `pki_pubkey_build_rsa` from the source. -/
theorem build_result_public_only
    (allocOk : Bool) (conv : SshStr → Option Nat)
    (p q g y e n : SshStr) (k : SshKey)
    (h : build_dsa allocOk conv p q g y = some k ∨
         build_rsa allocOk conv e n = some k) :
    k.flags = SSH_KEY_FLAG_PUBLIC ∧
    k.flags &&& SSH_KEY_FLAG_PRIVATE = 0 := by
  rcases h with h | h
  · simp only [build_dsa] at h
    split at h
    · rw [Option.some_inj] at h
      subst h
      refine ⟨rfl, ?_⟩
      show SSH_KEY_FLAG_PUBLIC &&& SSH_KEY_FLAG_PRIVATE = 0
      decide
    · exact absurd h (by simp)
  · simp only [build_rsa] at h
    split at h
    · rw [Option.some_inj] at h
      subst h
      refine ⟨rfl, ?_⟩
      show SSH_KEY_FLAG_PUBLIC &&& SSH_KEY_FLAG_PRIVATE = 0
      decide
    · exact absurd h (by simp)

/-- The key produced by a concrete successful DSS build. -/
def dssBuiltKey : SshKey :=
  { type := .dss, type_c := ssh_key_type_to_char .dss,
    flags := SSH_KEY_FLAG_PUBLIC,
    dsa := some ⟨some 1, some 1, some 1, some 1, none⟩, rsa := none }

/-- C6 witness: the theorem applied to a concrete successful DSS build. -/
theorem build_result_public_only_witness :
    dssBuiltKey.flags = SSH_KEY_FLAG_PUBLIC ∧
    dssBuiltKey.flags &&& SSH_KEY_FLAG_PRIVATE = 0 :=
  build_result_public_only true (fun _ => some 1) [1] [1] [1] [1] [1] [1]
    dssBuiltKey (Or.inl (by decide))

/-! ## Claims across all five operations -/

/-- C7: each of the five operations, given an `Unsupported`-family key
(elliptic-curve or unknown type) or an input implying one, fails — it
returns its failure value, never a success — and reaches no passphrase
mechanism in the decoder's case.  The build dispatch on the family is the
spec-modelled `pubkey_build`; everything else is the embedded source. -/
theorem unsupported_family_ops_fail :
    (∀ (k : SshKey) (demote : Bool),
       k.type = .ecdsa ∨ k.type = .unknown →
       pki_key_dup k demote = none) ∧
    (∀ (mkBn : Nat → Option (List Nat)) (k : SshKey),
       k.type = .ecdsa ∨ k.type = .unknown →
       pki_publickey_to_string mkBn k = none) ∧
    (∀ (dsaPrim : List Nat → Option DsaStruct → Option (Nat × Nat))
       (rsaPrim : List Nat → Option RsaStruct → Option (List Nat))
       (k : SshKey) (hash : List Nat),
       k.type = .ecdsa ∨ k.type = .unknown →
       pki_do_sign dsaPrim rsaPrim k hash = (none, [])) ∧
    (∀ (kNewOk : Bool) (classify : String → KeyType)
       (pemDSA : PassMech → Option DsaStruct)
       (pemRSA : PassMech → Option RsaStruct)
       (hasAuth : Bool) (b64 : String) (passphrase : Option String),
       classify b64 = .ecdsa ∨ classify b64 = .unknown →
       ∃ err, pki_private_key_from_base64 true kNewOk classify pemDSA
         pemRSA hasAuth b64 passphrase = (.error err, [])) ∧
    (∀ (allocOk : Bool) (conv : SshStr → Option Nat)
       (fam : KeyType) (fields : List SshStr),
       fam = .ecdsa ∨ fam = .unknown →
       pubkey_build allocOk conv fam fields = none) := by
  refine ⟨?_, ?_, ?_, ?_, ?_⟩
  · intro k demote hT
    rcases hT with hT | hT <;> simp [pki_key_dup, hT]
  · intro mkBn k hT
    rcases hT with hT | hT <;> simp [pki_publickey_to_string, hT]
  · intro dsaPrim rsaPrim k hash hT
    rcases hT with hT | hT <;> simp [pki_do_sign, hT]
  · intro kNewOk classify pemDSA pemRSA hasAuth b64 passphrase hC
    rcases hC with hC | hC
    · exact ⟨.unknownType, by simp [pki_private_key_from_base64, hC]⟩
    · exact ⟨.unknownPrivateKey, by simp [pki_private_key_from_base64, hC]⟩
  · intro allocOk conv fam fields hF
    rcases hF with hF | hF <;> subst hF <;>
      cases fields <;> simp [pubkey_build]

/-- A concrete elliptic-curve key handle, unsupported by this backend. -/
def ecdsaKey : SshKey :=
  { type := .ecdsa, type_c := "ecdsa-sha2-nistp256",
    flags := SSH_KEY_FLAG_PUBLIC, dsa := none, rsa := none }

/-- C7 witness: the unsupported-family theorem applied to a concrete
elliptic-curve key, an elliptic-curve classifier outcome, and the
elliptic-curve family tag. -/
theorem unsupported_family_ops_fail_witness :
    pki_key_dup ecdsaKey true = none ∧
    pki_publickey_to_string (fun v => some [v]) ecdsaKey = none ∧
    pki_do_sign dsaPrimNone rsaPrimConst ecdsaKey [0, 1, 2] = (none, []) ∧
    (∃ err, pki_private_key_from_base64 true true (fun _ => .ecdsa)
       (fun _ => none) (fun _ => none) false "ec pem block" none =
         (.error err, [])) ∧
    pubkey_build true (fun _ => some 1) .ecdsa [[1], [2]] = none :=
  ⟨unsupported_family_ops_fail.1 ecdsaKey true (Or.inl rfl),
   unsupported_family_ops_fail.2.1 (fun v => some [v]) ecdsaKey (Or.inl rfl),
   unsupported_family_ops_fail.2.2.1 dsaPrimNone rsaPrimConst ecdsaKey
     [0, 1, 2] (Or.inl rfl),
   unsupported_family_ops_fail.2.2.2.1 true (fun _ => .ecdsa)
     (fun _ => none) (fun _ => none) false "ec pem block" none (Or.inl rfl),
   unsupported_family_ops_fail.2.2.2.2 true (fun _ => some 1) .ecdsa
     [[1], [2]] (Or.inl rfl)⟩

/-- A field converter that fails exactly on the byte string `[9]`,
modelling `make_string_bn` rejecting one malformed field. -/
def convFailOn9 : SshStr → Option Nat :=
  fun s => if s = [9] then none else some 1

/-- C8: the claim says a failed build releases everything and leaves no
dangling or partially populated payload behind.  On a field-conversion
failure the source does call `DSA_free(key->dsa)` / `RSA_free(key->rsa)`,
but it never clears the struct member: the caller's key keeps pointing at
the freed payload (`key_dsa_set`/`key_rsa_set` true with
`dsa_freed`/`rsa_freed` true), a dangling reference that a later
`ssh_key_free` would free again. -/
theorem build_failure_leaves_dangling_payload :
    (pki_pubkey_build_dss true convFailOn9 [9] [1] [2] [3]).rc =
      SSH_ERROR ∧
    (pki_pubkey_build_dss true convFailOn9 [9] [1] [2] [3]).key_dsa_set =
      true ∧
    (pki_pubkey_build_dss true convFailOn9 [9] [1] [2] [3]).dsa_freed =
      true ∧
    (pki_pubkey_build_rsa true convFailOn9 [9] [1]).rc = SSH_ERROR ∧
    (pki_pubkey_build_rsa true convFailOn9 [9] [1]).key_rsa_set = true ∧
    (pki_pubkey_build_rsa true convFailOn9 [9] [1]).rsa_freed = true := by
  decide

/-! ## Claim about the passphrase-provider bridge -/

/-- `strlen` over a NUL-free prefix followed by NUL padding counts exactly
the prefix. -/
theorem strlenBuf_append_zeros (w : List Nat) (k : Nat)
    (hNz : ∀ b ∈ w, b ≠ 0) :
    strlenBuf (w ++ List.replicate k 0) = w.length := by
  induction w with
  | nil =>
    cases k with
    | zero => rfl
    | succ m => simp [strlenBuf, List.replicate_succ, List.takeWhile_cons]
  | cons a t ih =>
    have ha : a ≠ 0 := hNz a (by simp)
    have ht : ∀ b ∈ t, b ≠ 0 := fun b hb => hNz b (by simp [hb])
    have := ih ht
    simp_all [strlenBuf, List.takeWhile_cons]

/-- C9: with a session auth callback present and a real buffer,
`pem_get_password` returns the byte count of the secret the provider
wrote when the provider signals success (`rc = 0`); a rejection
(`rc ≠ 0`) yields a zero byte count, i.e. no passphrase; and the result
is never negative, so a zero-length secret comes back as the benign
"no decryption" count rather than OpenSSL's negative error sentinel. -/
theorem pem_get_password_contract (size : Nat) (auth : AuthCall)
    (_hLen : auth.written.length < size)
    (hNz : ∀ b ∈ auth.written, b ≠ 0) :
    (auth.rc = 0 →
      pem_get_password false size true auth =
        Int.ofNat auth.written.length) ∧
    (auth.rc ≠ 0 → pem_get_password false size true auth = 0) ∧
    0 ≤ pem_get_password false size true auth := by
  have hs : strlenBuf (bufAfterAuth size auth.written) =
      auth.written.length :=
    strlenBuf_append_zeros auth.written (size - auth.written.length) hNz
  refine ⟨fun h0 => ?_, fun hne => ?_, ?_⟩
  · simp [pem_get_password, h0, hs]
  · simp [pem_get_password, hne]
  · by_cases h0 : auth.rc = 0 <;> simp [pem_get_password, h0]

/-- C9 witness: the provider-bridge contract applied to a concrete
callback outcome — success writing the two bytes `hi` into an 8-byte
buffer yields the byte count 2. -/
theorem pem_get_password_contract_witness :
    pem_get_password false 8 true ⟨0, [104, 105]⟩ = Int.ofNat 2 :=
  (pem_get_password_contract 8 ⟨0, [104, 105]⟩ (by decide) (by decide)).1
    rfl
